import Mathlib

/-!
Verification of `tenantfollow.py`: a batch job that acquires an OAuth2
client-credentials token, enumerates all users of a tenant through a
paginated listing endpoint, and issues one follow-site call per user.

The network is modelled explicitly: the token endpoint's reply is a
`TokenResponse`, the listing endpoint's successive replies are a
`List PageResponse` (the pages the server would serve in request order;
an exhausted page list while a live next-link remains denotes an
unreachable URL), and the follow endpoint's reply is a function from the
user id to a `FollowResponse`.  Each embedded routine returns, besides
its result, the list of HTTP calls it issued and the console lines it
printed, so that claims about call counts, call order, headers and
per-user reporting can be stated.
-/

namespace TenantFollow

/-- Configuration constant `GRAPH_BASE_URL` from the source. -/
def GRAPH_BASE_URL : String := "https://graph.microsoft.com/beta"

/-- Configuration constant `SPECIFIC_SITE_ID` from the source. -/
def SPECIFIC_SITE_ID : String := "YOUR_SITE_ID"

/-- The header mapping built in `main`: bearer authorization plus JSON
content type.  It is constructed once from the token and never mutated. -/
structure Headers where
  authorization : String
  contentType : String
deriving DecidableEq, Repr

/-- `mkHeaders tok` embeds the dict literal
`{"Authorization": f"Bearer {access_token}", "Content-Type": "application/json"}`. -/
def mkHeaders (tok : String) : Headers :=
  { authorization := "Bearer " ++ tok, contentType := "application/json" }

/-- `requests.Response.raise_for_status` raises exactly when the status
code lies in 400..599. -/
def errStatus (s : Nat) : Bool := 400 ≤ s && s < 600

/-- Python truthiness of an optional string: `None` and `""` are falsy.
This is the `while url:` loop condition of `paginated_get`. -/
def truthy : Option String → Bool
  | none => false
  | some s => s ≠ ""

/-- Errors a run can raise: `requests.HTTPError` from `raise_for_status`,
`KeyError` from an unguarded dict lookup, and the model artifact of a
next-link pointing past the served pages. -/
inductive PyError where
  | httpError (status : Nat)
  | keyError (key : String)
  | noResponse
deriving DecidableEq, Repr

/-- The token endpoint's reply: HTTP status and the optional
`access_token` field of the JSON body (`none` = field absent). -/
structure TokenResponse where
  status : Nat
  access_token : Option String
deriving DecidableEq, Repr

/-- A user record of the listing: the optional `id` field and the
optional `userPrincipalName` field (`none` = field absent). -/
structure UserRec where
  id : Option String
  userPrincipalName : Option String
deriving DecidableEq, Repr

/-- One page served by the listing endpoint: HTTP status, the optional
`value` array and the optional `@odata.nextLink` field
(`none` = field absent). -/
structure PageResponse where
  status : Nat
  value : Option (List UserRec)
  nextLink : Option String
deriving DecidableEq, Repr

/-- The follow endpoint's reply for one user: HTTP status and body text. -/
structure FollowResponse where
  status : Nat
  text : String
deriving DecidableEq, Repr

/-- One HTTP call issued by the run, with the headers it carried.
The token POST carries no bearer headers (it sends form data). -/
inductive Call where
  | tokenCall
  | listCall (url : String) (headers : Headers)
  | followCall (url : String) (headers : Headers)
deriving DecidableEq, Repr

/-- One line printed to standard output. -/
inductive Line where
  | found (n : Nat)
  | processing (name : String)
  | followOk (user_id site_id : String)
  | followFail (user_id text : String)
deriving DecidableEq, Repr

/-- The users-listing URL `f"{GRAPH_BASE_URL}/users"` built in `main`. -/
def users_url : String := GRAPH_BASE_URL ++ "/users"

/-- The follow-endpoint URL `f"{GRAPH_BASE_URL}/users/{user_id}/followedSites/add"`. -/
def follow_url (user_id : String) : String :=
  GRAPH_BASE_URL ++ "/users/" ++ user_id ++ "/followedSites/add"

/-- Embedding of `get_access_token` applied to the token endpoint's
reply: `raise_for_status` first, then the unguarded `["access_token"]`
lookup on the JSON body. -/
def get_access_token (resp : TokenResponse) : Except PyError String :=
  if errStatus resp.status then Except.error (PyError.httpError resp.status)
  else
    match resp.access_token with
    | some t => Except.ok t
    | none => Except.error (PyError.keyError "access_token")

/-- Embedding of `paginated_get url headers`: one GET per loop
iteration; `raise_for_status`; `results.extend(data.get("value", []))`;
`url = data.get("@odata.nextLink")`; loop while `url` is truthy.
`pages` is the sequence of replies the server serves for the successive
requests, `acc` the `results` accumulator (initially `[]`).  Returns the
calls issued and either the collected items or the raised error. -/
def paginated_get : String → Headers → List PageResponse → List UserRec →
    List Call × Except PyError (List UserRec)
  | _, _, [], _ => ([], Except.error PyError.noResponse)
  | url, headers, p :: rest, acc =>
    if errStatus p.status then
      ([Call.listCall url headers], Except.error (PyError.httpError p.status))
    else
      let acc2 := acc ++ p.value.getD []
      if truthy p.nextLink then
        let r := paginated_get (p.nextLink.getD "") headers rest acc2
        (Call.listCall url headers :: r.1, r.2)
      else
        ([Call.listCall url headers], Except.ok acc2)

/-- Embedding of `follow_site user_id site_id headers` applied to the
follow endpoint's reply: the POST it issues and the line it prints
(success for status 200 or 204, failure with the body text otherwise). -/
def follow_site (user_id site_id : String) (headers : Headers) (resp : FollowResponse) :
    Call × Line :=
  (Call.followCall (follow_url user_id) headers,
   if resp.status = 200 ∨ resp.status = 204 then Line.followOk user_id site_id
   else Line.followFail user_id resp.text)

/-- The per-user loop of `main`: for each user, the unguarded
`user["id"]` lookup, the display name `user.get("userPrincipalName", user_id)`,
the progress line, and the `follow_site` call.  `f` gives the follow
endpoint's reply per user id.  Returns the calls issued, the lines
printed, and whether a `KeyError` aborted the loop. -/
def process_users (f : String → FollowResponse) (headers : Headers) :
    List UserRec → List Call × List Line × Except PyError Unit
  | [] => ([], [], Except.ok ())
  | u :: rest =>
    match u.id with
    | none => ([], [], Except.error (PyError.keyError "id"))
    | some uid =>
      let user_name := u.userPrincipalName.getD uid
      let fs := follow_site uid SPECIFIC_SITE_ID headers (f uid)
      let r := process_users f headers rest
      (fs.1 :: r.1,
       Line.processing user_name :: fs.2 :: r.2.1,
       r.2.2)

/-- The network model of one run: the token endpoint's reply, the
listing pages served in order, and the follow endpoint's reply per user
id. -/
structure Scenario where
  tokenResp : TokenResponse
  pages : List PageResponse
  follow : String → FollowResponse

/-- The part of `main` after the token was acquired: build headers,
fetch all users, print the count, then run the per-user loop. -/
def main_after_token (sc : Scenario) (tok : String) :
    List Call × List Line × Except PyError Unit :=
  let headers := mkHeaders tok
  let fetched := paginated_get users_url headers sc.pages []
  match fetched.2 with
  | Except.error e => (Call.tokenCall :: fetched.1, [], Except.error e)
  | Except.ok users =>
    let proc := process_users sc.follow headers users
    (Call.tokenCall :: fetched.1 ++ proc.1,
     Line.found users.length :: proc.2.1,
     proc.2.2)

/-- Embedding of `main`: acquire the token (one POST to the token
endpoint, recorded as `Call.tokenCall`), then `main_after_token`.
Returns the full call trace, the printed lines, and the run's outcome
(`Except.error` = an uncaught exception terminated the process). -/
def main_run (sc : Scenario) : List Call × List Line × Except PyError Unit :=
  match get_access_token sc.tokenResp with
  | Except.error e => ([Call.tokenCall], [], Except.error e)
  | Except.ok tok => main_after_token sc tok

/-- The concatenation, in page order, of the `value` arrays of a page
sequence (a missing `value` contributes nothing, as `data.get("value", [])`
does). -/
def collected : List PageResponse → List UserRec
  | [] => []
  | p :: rest => p.value.getD [] ++ collected rest

/-- The length of the collected items is the sum of the per-page item
counts. -/
theorem collected_length (pages : List TenantFollow.PageResponse) :
    (TenantFollow.collected pages).length =
      (pages.map fun p => (p.value.getD []).length).sum := by
  induction pages with
  | nil => rfl
  | cons p rest ih => simp [TenantFollow.collected, ih]

/-- On an all-successful page sequence whose next-link is live exactly
on the pages before the last, `paginated_get` issues one GET per page
(the first at the given URL, the rest at the successive next-links) and
returns the accumulator followed by the collected items. -/
theorem paginated_get_ok_aux (h : TenantFollow.Headers) :
    ∀ (ps : List TenantFollow.PageResponse) (q : TenantFollow.PageResponse)
      (url : String) (acc : List TenantFollow.UserRec),
      (∀ p ∈ ps, TenantFollow.errStatus p.status = false ∧
          TenantFollow.truthy p.nextLink = true) →
      TenantFollow.errStatus q.status = false →
      TenantFollow.truthy q.nextLink = false →
      TenantFollow.paginated_get url h (ps ++ [q]) acc =
        ((url :: ps.map fun p => p.nextLink.getD "").map
            fun u => TenantFollow.Call.listCall u h,
         Except.ok (acc ++ TenantFollow.collected (ps ++ [q]))) := by
  intro ps
  induction ps with
  | nil =>
    intro q url acc _ hq hql
    simp [TenantFollow.paginated_get, TenantFollow.collected, hq, hql]
  | cons p ps ih =>
    intro q url acc hps hq hql
    have hp := hps p (List.mem_cons_self _ _)
    have hrest : ∀ r ∈ ps, TenantFollow.errStatus r.status = false ∧
        TenantFollow.truthy r.nextLink = true :=
      fun r hr => hps r (List.mem_cons_of_mem _ hr)
    simp only [List.cons_append, TenantFollow.paginated_get, hp.1, hp.2,
      Bool.false_eq_true, if_false, if_true, List.append_eq]
    rw [ih q (p.nextLink.getD "") (acc ++ p.value.getD []) hrest hq hql]
    simp [TenantFollow.collected, List.append_assoc]

/-- If the pages before some page all succeed with a live next-link and
that page has an error status, `paginated_get` raises the HTTP error of
that page. -/
theorem paginated_get_err_aux (h : TenantFollow.Headers) :
    ∀ (ps : List TenantFollow.PageResponse) (bad : TenantFollow.PageResponse)
      (rest : List TenantFollow.PageResponse) (url : String)
      (acc : List TenantFollow.UserRec),
      (∀ p ∈ ps, TenantFollow.errStatus p.status = false ∧
          TenantFollow.truthy p.nextLink = true) →
      TenantFollow.errStatus bad.status = true →
      (TenantFollow.paginated_get url h (ps ++ bad :: rest) acc).2 =
        Except.error (TenantFollow.PyError.httpError bad.status) := by
  intro ps
  induction ps with
  | nil =>
    intro bad rest url acc _ hbad
    simp [TenantFollow.paginated_get, hbad]
  | cons p ps ih =>
    intro bad rest url acc hps hbad
    have hp := hps p (List.mem_cons_self _ _)
    have hrest : ∀ r ∈ ps, TenantFollow.errStatus r.status = false ∧
        TenantFollow.truthy r.nextLink = true :=
      fun r hr => hps r (List.mem_cons_of_mem _ hr)
    simp only [List.cons_append, TenantFollow.paginated_get, hp.1, hp.2,
      Bool.false_eq_true, if_false, if_true]
    exact ih bad rest (p.nextLink.getD "") (acc ++ p.value.getD []) hrest hbad

/-- Every call issued by `paginated_get` is a GET with the given
headers. -/
theorem paginated_get_calls_shape (h : TenantFollow.Headers) :
    ∀ (pages : List TenantFollow.PageResponse) (url : String)
      (acc : List TenantFollow.UserRec),
      ∀ c ∈ (TenantFollow.paginated_get url h pages acc).1,
        ∃ u, c = TenantFollow.Call.listCall u h := by
  intro pages
  induction pages with
  | nil => intro url acc c hc; simp [TenantFollow.paginated_get] at hc
  | cons p rest ih =>
    intro url acc c hc
    by_cases hs : TenantFollow.errStatus p.status
    · simp [TenantFollow.paginated_get, hs] at hc
      exact ⟨url, hc⟩
    · by_cases hl : TenantFollow.truthy p.nextLink
      · simp [TenantFollow.paginated_get, hs, hl] at hc
        rcases hc with hc | hc
        · exact ⟨url, hc⟩
        · exact ih (p.nextLink.getD "") (acc ++ p.value.getD []) c hc
      · simp [TenantFollow.paginated_get, hs, hl] at hc
        exact ⟨url, hc⟩

/-- When every user record carries an `id`, the per-user loop issues one
follow POST per user in enumeration order, finishes normally, and prints
for every user its progress line and its `follow_site` outcome line. -/
theorem process_users_ok (f : String → TenantFollow.FollowResponse)
    (h : TenantFollow.Headers) :
    ∀ us : List TenantFollow.UserRec, (∀ u ∈ us, u.id.isSome) →
      (TenantFollow.process_users f h us).1 =
        us.map (fun u => TenantFollow.Call.followCall
          (TenantFollow.follow_url (u.id.getD "")) h) ∧
      (TenantFollow.process_users f h us).2.2 = Except.ok () ∧
      ∀ u ∈ us,
        TenantFollow.Line.processing (u.userPrincipalName.getD (u.id.getD "")) ∈
          (TenantFollow.process_users f h us).2.1 ∧
        (TenantFollow.follow_site (u.id.getD "") TenantFollow.SPECIFIC_SITE_ID h
            (f (u.id.getD ""))).2 ∈ (TenantFollow.process_users f h us).2.1 := by
  intro us
  induction us with
  | nil => intro _; refine ⟨rfl, rfl, ?_⟩; intro u hu; simp at hu
  | cons u rest ih =>
    intro hids
    obtain ⟨uid, huid⟩ := Option.isSome_iff_exists.mp (hids u (List.mem_cons_self _ _))
    have hrest : ∀ v ∈ rest, v.id.isSome :=
      fun v hv => hids v (List.mem_cons_of_mem _ hv)
    obtain ⟨hcalls, hres, hlines⟩ := ih hrest
    refine ⟨?_, ?_, ?_⟩
    · simp [TenantFollow.process_users, huid, hcalls, TenantFollow.follow_site]
    · simp [TenantFollow.process_users, huid, hres]
    · intro v hv
      rcases List.mem_cons.mp hv with hv | hv
      · subst hv
        constructor
        · simp [TenantFollow.process_users, huid]
        · simp [TenantFollow.process_users, huid]
      · obtain ⟨h1, h2⟩ := hlines v hv
        constructor
        · simp only [TenantFollow.process_users, huid]
          exact List.mem_cons_of_mem _ (List.mem_cons_of_mem _ h1)
        · simp only [TenantFollow.process_users, huid]
          exact List.mem_cons_of_mem _ (List.mem_cons_of_mem _ h2)

/-- If every user before some record carries an `id` and that record
lacks one, the per-user loop issues follow POSTs exactly for the earlier
users and then aborts with `KeyError` on `"id"`, regardless of the
records after it. -/
theorem process_users_keyError (f : String → TenantFollow.FollowResponse)
    (h : TenantFollow.Headers) :
    ∀ (us1 : List TenantFollow.UserRec) (ubad : TenantFollow.UserRec)
      (us2 : List TenantFollow.UserRec),
      (∀ u ∈ us1, u.id.isSome) → ubad.id = none →
      (TenantFollow.process_users f h (us1 ++ ubad :: us2)).1 =
        us1.map (fun u => TenantFollow.Call.followCall
          (TenantFollow.follow_url (u.id.getD "")) h) ∧
      (TenantFollow.process_users f h (us1 ++ ubad :: us2)).2.2 =
        Except.error (TenantFollow.PyError.keyError "id") := by
  intro us1
  induction us1 with
  | nil =>
    intro ubad us2 _ hbad
    simp [TenantFollow.process_users, hbad]
  | cons u rest ih =>
    intro ubad us2 hids hbad
    obtain ⟨uid, huid⟩ := Option.isSome_iff_exists.mp (hids u (List.mem_cons_self _ _))
    have hrest : ∀ v ∈ rest, v.id.isSome :=
      fun v hv => hids v (List.mem_cons_of_mem _ hv)
    obtain ⟨hcalls, hres⟩ := ih ubad us2 hrest hbad
    constructor
    · simp [TenantFollow.process_users, huid, hcalls, TenantFollow.follow_site]
    · simp [TenantFollow.process_users, huid, hres]

/-- Every call issued by the per-user loop is a follow POST with the
given headers. -/
theorem process_users_calls_shape (f : String → TenantFollow.FollowResponse)
    (h : TenantFollow.Headers) :
    ∀ us : List TenantFollow.UserRec,
      ∀ c ∈ (TenantFollow.process_users f h us).1,
        ∃ u, c = TenantFollow.Call.followCall u h := by
  intro us
  induction us with
  | nil => intro c hc; simp [TenantFollow.process_users] at hc
  | cons u rest ih =>
    intro c hc
    cases huid : u.id with
    | none => simp [TenantFollow.process_users, huid] at hc
    | some uid =>
      simp only [TenantFollow.process_users, huid] at hc
      rcases List.mem_cons.mp hc with hc | hc
      · exact ⟨TenantFollow.follow_url uid, hc⟩
      · exact ih c hc

/-- C1: for every sequence of pages where page i holds k_i items in its
`value` array and a next-page link is live exactly on the pages before
the last, `paginated_get` returns exactly the concatenation of all
pages' items in page order, with total length the sum of the k_i. -/
theorem claim_C1_fetch_all_concat (ps : List TenantFollow.PageResponse)
    (q : TenantFollow.PageResponse) (url : String) (h : TenantFollow.Headers)
    (hstat : ∀ p ∈ ps ++ [q],
      TenantFollow.errStatus p.status = false ∧ p.value.isSome)
    (hlink : ∀ p ∈ ps, TenantFollow.truthy p.nextLink = true)
    (hlast : TenantFollow.truthy q.nextLink = false) :
    (TenantFollow.paginated_get url h (ps ++ [q]) []).2 =
      Except.ok (TenantFollow.collected (ps ++ [q])) ∧
    (TenantFollow.collected (ps ++ [q])).length =
      ((ps ++ [q]).map fun p => (p.value.getD []).length).sum := by
  have hgood : ∀ p ∈ ps, TenantFollow.errStatus p.status = false ∧
      TenantFollow.truthy p.nextLink = true :=
    fun p hp => ⟨(hstat p (List.mem_append_left _ hp)).1, hlink p hp⟩
  have hq := (hstat q (List.mem_append_right _ (List.mem_singleton.mpr rfl))).1
  rw [paginated_get_ok_aux h ps q url [] hgood hq hlast]
  exact ⟨by simp, collected_length _⟩

/-- Witness for C1: a two-page listing (two items then one item)
collects exactly the three items in order. -/
theorem claim_C1_fetch_all_concat_witness :
    (TenantFollow.paginated_get "start" (TenantFollow.mkHeaders "T")
        [⟨200, some [⟨some "u1", some "a@x.com"⟩, ⟨some "u2", some "b@x.com"⟩],
          some "next"⟩,
         ⟨200, some [⟨some "u3", none⟩], none⟩] []).2 =
      Except.ok [⟨some "u1", some "a@x.com"⟩, ⟨some "u2", some "b@x.com"⟩,
        ⟨some "u3", none⟩] ∧
    (3 : Nat) = [2, 1].sum := by
  have h := claim_C1_fetch_all_concat
    [⟨200, some [⟨some "u1", some "a@x.com"⟩, ⟨some "u2", some "b@x.com"⟩],
      some "next"⟩]
    ⟨200, some [⟨some "u3", none⟩], none⟩ "start" (TenantFollow.mkHeaders "T")
    (by decide) (by decide) (by decide)
  exact ⟨h.1, by decide⟩

/-- C2: `follow_site` reports success exactly when the response status
is 200 or 204, and reports failure carrying the response body for every
other status, whatever the body contains. -/
theorem claim_C2_follow_outcome (uid site : String) (h : TenantFollow.Headers)
    (resp : TenantFollow.FollowResponse) :
    ((TenantFollow.follow_site uid site h resp).2 = TenantFollow.Line.followOk uid site ↔
      (resp.status = 200 ∨ resp.status = 204)) ∧
    (¬(resp.status = 200 ∨ resp.status = 204) →
      (TenantFollow.follow_site uid site h resp).2 =
        TenantFollow.Line.followFail uid resp.text) := by
  by_cases hs : resp.status = 200 ∨ resp.status = 204
  · refine ⟨⟨fun _ => hs, fun _ => ?_⟩, fun hn => absurd hs hn⟩
    simp [TenantFollow.follow_site, hs]
  · refine ⟨⟨fun he => ?_, fun hok => absurd hok hs⟩, fun _ => ?_⟩
    · simp [TenantFollow.follow_site, hs] at he
    · simp [TenantFollow.follow_site, hs]

/-- Witness for C2: status 403 yields a failure line carrying the body. -/
theorem claim_C2_follow_outcome_witness :
    (TenantFollow.follow_site "u1" "S" (TenantFollow.mkHeaders "T")
        ⟨403, "denied"⟩).2 = TenantFollow.Line.followFail "u1" "denied" :=
  (claim_C2_follow_outcome "u1" "S" (TenantFollow.mkHeaders "T")
    ⟨403, "denied"⟩).2 (by decide)

/-- C3: when the token endpoint replies with a non-success status, the
run aborts with the authentication error having issued only the token
call: no listing GET and no follow POST is ever attempted. -/
theorem claim_C3_auth_abort (sc : TenantFollow.Scenario)
    (hbad : TenantFollow.errStatus sc.tokenResp.status = true) :
    TenantFollow.main_run sc =
      ([TenantFollow.Call.tokenCall], [],
       Except.error (TenantFollow.PyError.httpError sc.tokenResp.status)) := by
  have ht : TenantFollow.get_access_token sc.tokenResp =
      Except.error (TenantFollow.PyError.httpError sc.tokenResp.status) := by
    simp [TenantFollow.get_access_token, hbad]
  simp [TenantFollow.main_run, ht]

/-- Witness for C3: a 401 from the token endpoint aborts the run even
though the server holds a listable user. -/
theorem claim_C3_auth_abort_witness :
    TenantFollow.main_run
      ⟨⟨401, some "T"⟩, [⟨200, some [⟨some "u1", none⟩], none⟩],
        fun _ => ⟨204, ""⟩⟩ =
      ([TenantFollow.Call.tokenCall], [],
       Except.error (TenantFollow.PyError.httpError 401)) :=
  claim_C3_auth_abort _ (by decide)

/-- C4: when some page of the listing replies with a non-success status
(all pages before it succeeding with a live next-link), the whole fetch
fails with that page's HTTP error, the run aborts, nothing is printed
and no follow POST is ever issued: collected users from earlier pages
are lost. -/
theorem claim_C4_fetch_abort (sc : TenantFollow.Scenario) (tok : String)
    (ps rest : List TenantFollow.PageResponse) (bad : TenantFollow.PageResponse)
    (htok : TenantFollow.get_access_token sc.tokenResp = Except.ok tok)
    (hpages : sc.pages = ps ++ bad :: rest)
    (hgood : ∀ p ∈ ps, TenantFollow.errStatus p.status = false ∧
      TenantFollow.truthy p.nextLink = true)
    (hbad : TenantFollow.errStatus bad.status = true) :
    (TenantFollow.main_run sc).2.2 =
      Except.error (TenantFollow.PyError.httpError bad.status) ∧
    (TenantFollow.main_run sc).2.1 = [] ∧
    ∀ uid h2, TenantFollow.Call.followCall uid h2 ∉ (TenantFollow.main_run sc).1 := by
  have hfetch : (TenantFollow.paginated_get TenantFollow.users_url
      (TenantFollow.mkHeaders tok) sc.pages []).2 =
      Except.error (TenantFollow.PyError.httpError bad.status) := by
    rw [hpages]
    exact paginated_get_err_aux _ ps bad rest _ _ hgood hbad
  have hm : TenantFollow.main_run sc =
      (TenantFollow.Call.tokenCall ::
        (TenantFollow.paginated_get TenantFollow.users_url
          (TenantFollow.mkHeaders tok) sc.pages []).1,
       [], Except.error (TenantFollow.PyError.httpError bad.status)) := by
    simp [TenantFollow.main_run, htok, TenantFollow.main_after_token, hfetch]
  refine ⟨by rw [hm], by rw [hm], ?_⟩
  intro uid h2 hmem
  rw [hm] at hmem
  rcases List.mem_cons.mp hmem with hc | hc
  · simp at hc
  · obtain ⟨u, hu⟩ := paginated_get_calls_shape (TenantFollow.mkHeaders tok)
      sc.pages TenantFollow.users_url [] _ hc
    simp at hu

/-- Witness for C4: page 1 succeeds with two users and a next-link,
page 2 replies 500; the run errors, prints nothing and issues no follow
call for the already-collected first user. -/
theorem claim_C4_fetch_abort_witness :
    (TenantFollow.main_run
        ⟨⟨200, some "T"⟩,
         [⟨200, some [⟨some "u1", none⟩, ⟨some "u2", none⟩], some "next"⟩,
          ⟨500, some [], none⟩],
         fun _ => ⟨204, ""⟩⟩).2.2 =
      Except.error (TenantFollow.PyError.httpError 500) ∧
    (TenantFollow.main_run
        ⟨⟨200, some "T"⟩,
         [⟨200, some [⟨some "u1", none⟩, ⟨some "u2", none⟩], some "next"⟩,
          ⟨500, some [], none⟩],
         fun _ => ⟨204, ""⟩⟩).2.1 = [] ∧
    TenantFollow.Call.followCall (TenantFollow.follow_url "u1")
        (TenantFollow.mkHeaders "T") ∉
      (TenantFollow.main_run
        ⟨⟨200, some "T"⟩,
         [⟨200, some [⟨some "u1", none⟩, ⟨some "u2", none⟩], some "next"⟩,
          ⟨500, some [], none⟩],
         fun _ => ⟨204, ""⟩⟩).1 := by
  have h := claim_C4_fetch_abort
    ⟨⟨200, some "T"⟩,
     [⟨200, some [⟨some "u1", none⟩, ⟨some "u2", none⟩], some "next"⟩,
      ⟨500, some [], none⟩],
     fun _ => ⟨204, ""⟩⟩ "T"
    [⟨200, some [⟨some "u1", none⟩, ⟨some "u2", none⟩], some "next"⟩] []
    ⟨500, some [], none⟩ rfl rfl (by decide) (by decide)
  exact ⟨h.1, h.2.1, h.2.2 _ _⟩

/-- C5: a non-success follow response for one user does not stop the
run: the run still finishes normally, a failure line carrying that
user's response body is printed, and a follow POST is still issued for
every subsequent user in enumeration order. -/
theorem claim_C5_follow_failure_continues (sc : TenantFollow.Scenario)
    (tok uid : String) (us1 us2 : List TenantFollow.UserRec)
    (ubad : TenantFollow.UserRec)
    (htok : TenantFollow.get_access_token sc.tokenResp = Except.ok tok)
    (hfetch : (TenantFollow.paginated_get TenantFollow.users_url
      (TenantFollow.mkHeaders tok) sc.pages []).2 =
      Except.ok (us1 ++ ubad :: us2))
    (hids : ∀ u ∈ us1 ++ ubad :: us2, u.id.isSome)
    (hbadid : ubad.id = some uid)
    (hfail : ¬((sc.follow uid).status = 200 ∨ (sc.follow uid).status = 204)) :
    (TenantFollow.main_run sc).2.2 = Except.ok () ∧
    TenantFollow.Line.followFail uid (sc.follow uid).text ∈
      (TenantFollow.main_run sc).2.1 ∧
    ∀ u ∈ us2, TenantFollow.Call.followCall
        (TenantFollow.follow_url (u.id.getD "")) (TenantFollow.mkHeaders tok) ∈
      (TenantFollow.main_run sc).1 := by
  obtain ⟨pc, pr, pl⟩ := process_users_ok sc.follow (TenantFollow.mkHeaders tok)
    (us1 ++ ubad :: us2) hids
  have hm : TenantFollow.main_run sc =
      (TenantFollow.Call.tokenCall ::
        (TenantFollow.paginated_get TenantFollow.users_url
          (TenantFollow.mkHeaders tok) sc.pages []).1 ++
        (TenantFollow.process_users sc.follow (TenantFollow.mkHeaders tok)
          (us1 ++ ubad :: us2)).1,
       TenantFollow.Line.found (us1 ++ ubad :: us2).length ::
        (TenantFollow.process_users sc.follow (TenantFollow.mkHeaders tok)
          (us1 ++ ubad :: us2)).2.1,
       (TenantFollow.process_users sc.follow (TenantFollow.mkHeaders tok)
          (us1 ++ ubad :: us2)).2.2) := by
    simp [TenantFollow.main_run, htok, TenantFollow.main_after_token, hfetch]
  have hbadmem : ubad ∈ us1 ++ ubad :: us2 :=
    List.mem_append_right _ (List.mem_cons_self _ _)
  refine ⟨by rw [hm]; exact pr, ?_, ?_⟩
  · have hline := (pl ubad hbadmem).2
    have hfs : (TenantFollow.follow_site (ubad.id.getD "")
        TenantFollow.SPECIFIC_SITE_ID (TenantFollow.mkHeaders tok)
        (sc.follow (ubad.id.getD ""))).2 =
        TenantFollow.Line.followFail uid (sc.follow uid).text := by
      rw [hbadid]
      simp only [Option.getD_some]
      simp [TenantFollow.follow_site, hfail]
    rw [hbadid] at hline
    simp only [Option.getD_some] at hline
    rw [hbadid] at hfs
    simp only [Option.getD_some] at hfs
    rw [hm]
    exact List.mem_cons_of_mem _ (hfs ▸ hline)
  · intro u hu
    rw [hm]
    have : TenantFollow.Call.followCall
        (TenantFollow.follow_url (u.id.getD "")) (TenantFollow.mkHeaders tok) ∈
        (TenantFollow.process_users sc.follow (TenantFollow.mkHeaders tok)
          (us1 ++ ubad :: us2)).1 := by
      rw [pc]
      exact List.mem_map_of_mem _
        (List.mem_append_right _ (List.mem_cons_of_mem _ hu))
    exact List.mem_cons_of_mem _ (List.mem_append_right _ this)

/-- Witness for C5: of three users, the second one's follow call returns
403; the run completes, the failure is reported for that user, and the
third user still gets a follow call. -/
theorem claim_C5_follow_failure_continues_witness :
    (TenantFollow.main_run
        ⟨⟨200, some "T"⟩,
         [⟨200, some [⟨some "u1", none⟩, ⟨some "u2", none⟩, ⟨some "u3", none⟩],
           none⟩],
         fun uid => if uid = "u2" then ⟨403, "denied"⟩ else ⟨204, ""⟩⟩).2.2 =
      Except.ok () ∧
    TenantFollow.Line.followFail "u2" "denied" ∈
      (TenantFollow.main_run
        ⟨⟨200, some "T"⟩,
         [⟨200, some [⟨some "u1", none⟩, ⟨some "u2", none⟩, ⟨some "u3", none⟩],
           none⟩],
         fun uid => if uid = "u2" then ⟨403, "denied"⟩ else ⟨204, ""⟩⟩).2.1 ∧
    TenantFollow.Call.followCall (TenantFollow.follow_url "u3")
        (TenantFollow.mkHeaders "T") ∈
      (TenantFollow.main_run
        ⟨⟨200, some "T"⟩,
         [⟨200, some [⟨some "u1", none⟩, ⟨some "u2", none⟩, ⟨some "u3", none⟩],
           none⟩],
         fun uid => if uid = "u2" then ⟨403, "denied"⟩ else ⟨204, ""⟩⟩).1 := by
  have h := claim_C5_follow_failure_continues
    ⟨⟨200, some "T"⟩,
     [⟨200, some [⟨some "u1", none⟩, ⟨some "u2", none⟩, ⟨some "u3", none⟩],
       none⟩],
     fun uid => if uid = "u2" then ⟨403, "denied"⟩ else ⟨204, ""⟩⟩
    "T" "u2" [⟨some "u1", none⟩] [⟨some "u3", none⟩] ⟨some "u2", none⟩
    rfl rfl (by decide) rfl (by decide)
  exact ⟨h.1, h.2.1, h.2.2 ⟨some "u3", none⟩ (by decide)⟩

/-- C8: on a listing of N pages (next-link live exactly before the
last), the run issues exactly one token call, then exactly one listing
GET per page (N in total, the first at the users URL, the rest at the
successive next-links), then exactly one follow POST per fetched item in
the order the items were returned. -/
theorem claim_C8_call_counts (sc : TenantFollow.Scenario) (tok : String)
    (ps : List TenantFollow.PageResponse) (q : TenantFollow.PageResponse)
    (htok : TenantFollow.get_access_token sc.tokenResp = Except.ok tok)
    (hpages : sc.pages = ps ++ [q])
    (hstat : ∀ p ∈ ps ++ [q], TenantFollow.errStatus p.status = false)
    (hlink : ∀ p ∈ ps, TenantFollow.truthy p.nextLink = true)
    (hlast : TenantFollow.truthy q.nextLink = false)
    (hids : ∀ u ∈ TenantFollow.collected (ps ++ [q]), u.id.isSome) :
    (TenantFollow.main_run sc).1 =
      TenantFollow.Call.tokenCall ::
        ((TenantFollow.users_url :: ps.map fun p => p.nextLink.getD "").map
          fun u => TenantFollow.Call.listCall u (TenantFollow.mkHeaders tok)) ++
        (TenantFollow.collected (ps ++ [q])).map
          (fun u => TenantFollow.Call.followCall
            (TenantFollow.follow_url (u.id.getD "")) (TenantFollow.mkHeaders tok)) ∧
    ((TenantFollow.users_url :: ps.map fun p => p.nextLink.getD "").map
        fun u => TenantFollow.Call.listCall u (TenantFollow.mkHeaders tok)).length =
      (ps ++ [q]).length := by
  have hgood : ∀ p ∈ ps, TenantFollow.errStatus p.status = false ∧
      TenantFollow.truthy p.nextLink = true :=
    fun p hp => ⟨hstat p (List.mem_append_left _ hp), hlink p hp⟩
  have hq := hstat q (List.mem_append_right _ (List.mem_singleton.mpr rfl))
  have hfetch := paginated_get_ok_aux (TenantFollow.mkHeaders tok) ps q
    TenantFollow.users_url [] hgood hq hlast
  obtain ⟨pc, pr, pl⟩ := process_users_ok sc.follow (TenantFollow.mkHeaders tok)
    (TenantFollow.collected (ps ++ [q])) hids
  constructor
  · simp only [TenantFollow.main_run, htok, TenantFollow.main_after_token, hpages,
      hfetch, List.nil_append]
    simp [pc]
  · simp [List.length_append]

/-- Witness for C8: two pages (two users with a next-link, then one
user) produce the token call, two listing GETs and three follow POSTs in
item order. -/
theorem claim_C8_call_counts_witness :
    (TenantFollow.main_run
        ⟨⟨200, some "T"⟩,
         [⟨200, some [⟨some "u1", some "a@x.com"⟩, ⟨some "u2", some "b@x.com"⟩],
           some "page2"⟩,
          ⟨200, some [⟨some "u3", none⟩], none⟩],
         fun _ => ⟨204, ""⟩⟩).1 =
      [TenantFollow.Call.tokenCall,
       TenantFollow.Call.listCall TenantFollow.users_url (TenantFollow.mkHeaders "T"),
       TenantFollow.Call.listCall "page2" (TenantFollow.mkHeaders "T"),
       TenantFollow.Call.followCall (TenantFollow.follow_url "u1")
         (TenantFollow.mkHeaders "T"),
       TenantFollow.Call.followCall (TenantFollow.follow_url "u2")
         (TenantFollow.mkHeaders "T"),
       TenantFollow.Call.followCall (TenantFollow.follow_url "u3")
         (TenantFollow.mkHeaders "T")] ∧ (2 : Nat) = [1, 2].length := by
  have h := claim_C8_call_counts
    ⟨⟨200, some "T"⟩,
     [⟨200, some [⟨some "u1", some "a@x.com"⟩, ⟨some "u2", some "b@x.com"⟩],
       some "page2"⟩,
      ⟨200, some [⟨some "u3", none⟩], none⟩],
     fun _ => ⟨204, ""⟩⟩ "T"
    [⟨200, some [⟨some "u1", some "a@x.com"⟩, ⟨some "u2", some "b@x.com"⟩],
      some "page2"⟩]
    ⟨200, some [⟨some "u3", none⟩], none⟩
    rfl rfl (by decide) (by decide) (by decide) (by decide)
  exact ⟨h.1, by decide⟩

/-- C9: the token acquired at the start is issued exactly once (the
token call heads the trace and never recurs — no refresh), and every
other call of the run carries, unmodified, the header mapping built from
that token, whose authorization field is the bearer form of the token. -/
theorem claim_C9_token_headers_invariant (sc : TenantFollow.Scenario) (tok : String)
    (htok : TenantFollow.get_access_token sc.tokenResp = Except.ok tok) :
    (TenantFollow.mkHeaders tok).authorization = "Bearer " ++ tok ∧
    (∃ rest, (TenantFollow.main_run sc).1 = TenantFollow.Call.tokenCall :: rest ∧
      TenantFollow.Call.tokenCall ∉ rest) ∧
    ∀ c ∈ (TenantFollow.main_run sc).1, c = TenantFollow.Call.tokenCall ∨
      (∃ u, c = TenantFollow.Call.listCall u (TenantFollow.mkHeaders tok)) ∨
      (∃ u, c = TenantFollow.Call.followCall u (TenantFollow.mkHeaders tok)) := by
  refine ⟨rfl, ?_⟩
  cases hfetch : (TenantFollow.paginated_get TenantFollow.users_url
      (TenantFollow.mkHeaders tok) sc.pages []).2 with
  | error e =>
    have hm : TenantFollow.main_run sc =
        (TenantFollow.Call.tokenCall ::
          (TenantFollow.paginated_get TenantFollow.users_url
            (TenantFollow.mkHeaders tok) sc.pages []).1,
         [], Except.error e) := by
      simp [TenantFollow.main_run, htok, TenantFollow.main_after_token, hfetch]
    constructor
    · refine ⟨(TenantFollow.paginated_get TenantFollow.users_url
        (TenantFollow.mkHeaders tok) sc.pages []).1, by rw [hm], fun hmem => ?_⟩
      obtain ⟨u, hu⟩ := paginated_get_calls_shape (TenantFollow.mkHeaders tok)
        sc.pages TenantFollow.users_url [] _ hmem
      simp at hu
    · intro c hc
      rw [hm] at hc
      rcases List.mem_cons.mp hc with hc | hc
      · exact Or.inl hc
      · exact Or.inr (Or.inl (paginated_get_calls_shape _ _ _ _ _ hc))
  | ok users =>
    have hm : TenantFollow.main_run sc =
        (TenantFollow.Call.tokenCall ::
          (TenantFollow.paginated_get TenantFollow.users_url
            (TenantFollow.mkHeaders tok) sc.pages []).1 ++
          (TenantFollow.process_users sc.follow (TenantFollow.mkHeaders tok) users).1,
         TenantFollow.Line.found users.length ::
          (TenantFollow.process_users sc.follow (TenantFollow.mkHeaders tok) users).2.1,
         (TenantFollow.process_users sc.follow (TenantFollow.mkHeaders tok) users).2.2) := by
      simp [TenantFollow.main_run, htok, TenantFollow.main_after_token, hfetch]
    constructor
    · refine ⟨(TenantFollow.paginated_get TenantFollow.users_url
          (TenantFollow.mkHeaders tok) sc.pages []).1 ++
        (TenantFollow.process_users sc.follow (TenantFollow.mkHeaders tok) users).1,
        by rw [hm]; rfl, fun hmem => ?_⟩
      rcases List.mem_append.mp hmem with hmem | hmem
      · obtain ⟨u, hu⟩ := paginated_get_calls_shape (TenantFollow.mkHeaders tok)
          sc.pages TenantFollow.users_url [] _ hmem
        simp at hu
      · obtain ⟨u, hu⟩ := process_users_calls_shape sc.follow
          (TenantFollow.mkHeaders tok) users _ hmem
        simp at hu
    · intro c hc
      rw [hm] at hc
      rcases List.mem_cons.mp hc with hc | hc
      · exact Or.inl hc
      · rcases List.mem_append.mp hc with hc | hc
        · exact Or.inr (Or.inl (paginated_get_calls_shape _ _ _ _ _ hc))
        · exact Or.inr (Or.inr (process_users_calls_shape _ _ _ _ hc))

/-- Witness for C9: on a one-page, one-user run the token call heads the
trace without recurring and both remaining calls carry the bearer
headers built from the token. -/
theorem claim_C9_token_headers_invariant_witness :
    (TenantFollow.mkHeaders "T").authorization = "Bearer " ++ "T" ∧
    (∃ rest, (TenantFollow.main_run
        ⟨⟨200, some "T"⟩, [⟨200, some [⟨some "u1", none⟩], none⟩],
         fun _ => ⟨204, ""⟩⟩).1 = TenantFollow.Call.tokenCall :: rest ∧
      TenantFollow.Call.tokenCall ∉ rest) ∧
    ∀ c ∈ (TenantFollow.main_run
        ⟨⟨200, some "T"⟩, [⟨200, some [⟨some "u1", none⟩], none⟩],
         fun _ => ⟨204, ""⟩⟩).1, c = TenantFollow.Call.tokenCall ∨
      (∃ u, c = TenantFollow.Call.listCall u (TenantFollow.mkHeaders "T")) ∨
      (∃ u, c = TenantFollow.Call.followCall u (TenantFollow.mkHeaders "T")) :=
  claim_C9_token_headers_invariant
    ⟨⟨200, some "T"⟩, [⟨200, some [⟨some "u1", none⟩], none⟩],
     fun _ => ⟨204, ""⟩⟩ "T" rfl

/-- C10: a fetched user record lacking the `id` field makes the
unguarded lookup raise a `KeyError` that aborts the whole run at that
user — follow POSTs were issued exactly for the earlier users and none
for the later ones, whatever `userPrincipalName` holds — while a record
carrying `id` but no `userPrincipalName` is processed normally, with
the id used as the display name. -/
theorem claim_C10_missing_id_aborts (sc : TenantFollow.Scenario) (tok : String)
    (us1 us2 : List TenantFollow.UserRec) (ubad : TenantFollow.UserRec)
    (htok : TenantFollow.get_access_token sc.tokenResp = Except.ok tok)
    (hfetch : (TenantFollow.paginated_get TenantFollow.users_url
      (TenantFollow.mkHeaders tok) sc.pages []).2 =
      Except.ok (us1 ++ ubad :: us2))
    (hids : ∀ u ∈ us1, u.id.isSome)
    (hbad : ubad.id = none) :
    (TenantFollow.main_run sc).2.2 =
      Except.error (TenantFollow.PyError.keyError "id") ∧
    (TenantFollow.main_run sc).1 =
      TenantFollow.Call.tokenCall ::
        (TenantFollow.paginated_get TenantFollow.users_url
          (TenantFollow.mkHeaders tok) sc.pages []).1 ++
        us1.map (fun u => TenantFollow.Call.followCall
          (TenantFollow.follow_url (u.id.getD "")) (TenantFollow.mkHeaders tok)) ∧
    ∀ (u : TenantFollow.UserRec) (uid : String),
      u.id = some uid → u.userPrincipalName = none →
      (TenantFollow.process_users sc.follow (TenantFollow.mkHeaders tok) [u]).2.1 =
        [TenantFollow.Line.processing uid,
         (TenantFollow.follow_site uid TenantFollow.SPECIFIC_SITE_ID
           (TenantFollow.mkHeaders tok) (sc.follow uid)).2] := by
  obtain ⟨pc, pr⟩ := process_users_keyError sc.follow (TenantFollow.mkHeaders tok)
    us1 ubad us2 hids hbad
  have hm : TenantFollow.main_run sc =
      (TenantFollow.Call.tokenCall ::
        (TenantFollow.paginated_get TenantFollow.users_url
          (TenantFollow.mkHeaders tok) sc.pages []).1 ++
        (TenantFollow.process_users sc.follow (TenantFollow.mkHeaders tok)
          (us1 ++ ubad :: us2)).1,
       TenantFollow.Line.found (us1 ++ ubad :: us2).length ::
        (TenantFollow.process_users sc.follow (TenantFollow.mkHeaders tok)
          (us1 ++ ubad :: us2)).2.1,
       (TenantFollow.process_users sc.follow (TenantFollow.mkHeaders tok)
          (us1 ++ ubad :: us2)).2.2) := by
    simp [TenantFollow.main_run, htok, TenantFollow.main_after_token, hfetch]
  refine ⟨by rw [hm]; exact pr, by rw [hm, pc], ?_⟩
  intro u uid huid hupn
  simp [TenantFollow.process_users, huid, hupn]

/-- Witness for C10: the second of three users lacks `id` though it has
a `userPrincipalName`; the run aborts with the key error after a follow
POST for the first user only, and a user with an id but no principal
name displays under its id. -/
theorem claim_C10_missing_id_aborts_witness :
    (TenantFollow.main_run
        ⟨⟨200, some "T"⟩,
         [⟨200, some [⟨some "u1", none⟩, ⟨none, some "b@x.com"⟩,
           ⟨some "u3", none⟩], none⟩],
         fun _ => ⟨204, ""⟩⟩).2.2 =
      Except.error (TenantFollow.PyError.keyError "id") ∧
    (TenantFollow.main_run
        ⟨⟨200, some "T"⟩,
         [⟨200, some [⟨some "u1", none⟩, ⟨none, some "b@x.com"⟩,
           ⟨some "u3", none⟩], none⟩],
         fun _ => ⟨204, ""⟩⟩).1 =
      [TenantFollow.Call.tokenCall,
       TenantFollow.Call.listCall TenantFollow.users_url (TenantFollow.mkHeaders "T"),
       TenantFollow.Call.followCall (TenantFollow.follow_url "u1")
         (TenantFollow.mkHeaders "T")] ∧
    (TenantFollow.process_users
        (fun _ => (⟨204, ""⟩ : TenantFollow.FollowResponse))
        (TenantFollow.mkHeaders "T") [⟨some "u9", none⟩]).2.1 =
      [TenantFollow.Line.processing "u9",
       (TenantFollow.follow_site "u9" TenantFollow.SPECIFIC_SITE_ID
         (TenantFollow.mkHeaders "T")
         ((fun _ => (⟨204, ""⟩ : TenantFollow.FollowResponse)) "u9")).2] := by
  have h := claim_C10_missing_id_aborts
    ⟨⟨200, some "T"⟩,
     [⟨200, some [⟨some "u1", none⟩, ⟨none, some "b@x.com"⟩,
       ⟨some "u3", none⟩], none⟩],
     fun _ => ⟨204, ""⟩⟩ "T"
    [⟨some "u1", none⟩] [⟨some "u3", none⟩] ⟨none, some "b@x.com"⟩
    rfl rfl (by decide) rfl
  exact ⟨h.1, by rw [h.2.1]; rfl, h.2.2 ⟨some "u9", none⟩ "u9" rfl rfl⟩

/-- Counterexample to C6 as stated: with status 200 and the
`access_token` field present but empty, `get_access_token` returns the
empty string (not a non-empty one); and with the non-2xx status 304 and
the field present, it succeeds instead of failing (`raise_for_status`
raises only for 4xx/5xx). -/
theorem claim_C6_token_cex :
    TenantFollow.get_access_token ⟨200, some ""⟩ = Except.ok "" ∧
    TenantFollow.get_access_token ⟨304, some "T1"⟩ = Except.ok "T1" := by
  exact ⟨rfl, rfl⟩

/-- C6 (amended): `get_access_token` returns exactly the string held by
the `access_token` field — possibly empty — whenever the status is not
4xx/5xx and the field is present; it fails with a key error when the
field is absent (status not 4xx/5xx) and with an HTTP error whenever
the status is 4xx/5xx. -/
theorem claim_C6_token_amended (resp : TenantFollow.TokenResponse) :
    (TenantFollow.errStatus resp.status = false → ∀ t, resp.access_token = some t →
      TenantFollow.get_access_token resp = Except.ok t) ∧
    (TenantFollow.errStatus resp.status = false → resp.access_token = none →
      TenantFollow.get_access_token resp =
        Except.error (TenantFollow.PyError.keyError "access_token")) ∧
    (TenantFollow.errStatus resp.status = true →
      TenantFollow.get_access_token resp =
        Except.error (TenantFollow.PyError.httpError resp.status)) := by
  refine ⟨fun hs t ht => ?_, fun hs ht => ?_, fun hs => ?_⟩
  · simp [TenantFollow.get_access_token, hs, ht]
  · simp [TenantFollow.get_access_token, hs, ht]
  · simp [TenantFollow.get_access_token, hs]

/-- Witness for the amended C6: a present token is returned verbatim, an
absent field raises the key error, an error status raises the HTTP
error. -/
theorem claim_C6_token_amended_witness :
    TenantFollow.get_access_token ⟨200, some "tok123"⟩ = Except.ok "tok123" ∧
    TenantFollow.get_access_token ⟨200, none⟩ =
      Except.error (TenantFollow.PyError.keyError "access_token") ∧
    TenantFollow.get_access_token ⟨500, none⟩ =
      Except.error (TenantFollow.PyError.httpError 500) :=
  ⟨(claim_C6_token_amended ⟨200, some "tok123"⟩).1 (by decide) "tok123" rfl,
   (claim_C6_token_amended ⟨200, none⟩).2.1 (by decide) rfl,
   (claim_C6_token_amended ⟨500, none⟩).2.2 (by decide)⟩

/-- Counterexample to C7 as stated: a listing page that lacks the
`value` field does not abort the run — `data.get("value", [])` tolerates
it — and the whole run completes normally with zero users. -/
theorem claim_C7_missing_value_cex :
    TenantFollow.main_run
      ⟨⟨200, some "T"⟩, [⟨200, none, none⟩], fun _ => ⟨204, ""⟩⟩ =
      ([TenantFollow.Call.tokenCall,
        TenantFollow.Call.listCall TenantFollow.users_url
          (TenantFollow.mkHeaders "T")],
       [TenantFollow.Line.found 0], Except.ok ()) := rfl

/-- C7 (amended): a listing response lacking the `value` field is
silently tolerated — it contributes no items, and pagination either ends
(next-link absent) or continues on the remaining pages with the
accumulator unchanged; no structural error propagates from it. -/
theorem claim_C7_missing_value_amended (p : TenantFollow.PageResponse)
    (rest : List TenantFollow.PageResponse) (url : String)
    (h : TenantFollow.Headers) (acc : List TenantFollow.UserRec)
    (hs : TenantFollow.errStatus p.status = false)
    (hv : p.value = none) :
    (TenantFollow.truthy p.nextLink = false →
      TenantFollow.paginated_get url h (p :: rest) acc =
        ([TenantFollow.Call.listCall url h], Except.ok acc)) ∧
    (TenantFollow.truthy p.nextLink = true →
      TenantFollow.paginated_get url h (p :: rest) acc =
        (TenantFollow.Call.listCall url h ::
          (TenantFollow.paginated_get (p.nextLink.getD "") h rest acc).1,
         (TenantFollow.paginated_get (p.nextLink.getD "") h rest acc).2)) := by
  constructor
  · intro hl
    simp [TenantFollow.paginated_get, hs, hv, hl]
  · intro hl
    simp [TenantFollow.paginated_get, hs, hv, hl]

/-- Witness for the amended C7: a value-less page with a live next-link
is skipped and pagination continues to the next page. -/
theorem claim_C7_missing_value_amended_witness :
    TenantFollow.paginated_get "start" (TenantFollow.mkHeaders "T")
        [⟨200, none, some "p2"⟩, ⟨200, some [⟨some "u1", none⟩], none⟩] [] =
      (TenantFollow.Call.listCall "start" (TenantFollow.mkHeaders "T") ::
        (TenantFollow.paginated_get "p2" (TenantFollow.mkHeaders "T")
          [⟨200, some [⟨some "u1", none⟩], none⟩] []).1,
       (TenantFollow.paginated_get "p2" (TenantFollow.mkHeaders "T")
          [⟨200, some [⟨some "u1", none⟩], none⟩] []).2) :=
  (claim_C7_missing_value_amended ⟨200, none, some "p2"⟩
    [⟨200, some [⟨some "u1", none⟩], none⟩] "start"
    (TenantFollow.mkHeaders "T") [] (by decide) rfl).2 (by decide)

end TenantFollow
